import Mathlib

/-!
Verification of the sales-automation CSV aggregation engine (`src/app.py`).

Shallow embedding: a cell of the uploaded table is a `Cell` (string, number,
or missing/NaN); a data-frame row is an association list from column name to
cell; pandas numeric values are modelled as exact rationals.  Each definition
mirrors a function or code block of `app.py`, referenced by line number in its
doc comment.  String manipulation is implemented over character lists so that
all definitions reduce inside the kernel.
-/

set_option allowUnsafeReducibility true

attribute [local semireducible] Rat.add Rat.mul Rat.div Rat.sub Rat.neg Rat.inv

/-- A cell of the uploaded table: a string, a number (pandas numeric values
modelled as exact rationals), or missing (NaN). -/
inductive Cell where
  | str (s : String)
  | num (q : ℚ)
  | missing
  deriving DecidableEq, Repr

/-- A data-frame row: an association list from column name to cell. -/
abbrev Row := List (String × Cell)

/-- Column lookup `row[c]`: first matching column, missing if absent. -/
def Row.get (r : Row) (c : String) : Cell :=
  match r.find? (fun p => p.1 == c) with
  | some p => p.2
  | none => Cell.missing

/-- Column assignment `df[c] = v` restricted to one row: overwrite the first
occurrence in place if the column exists, else append a new column. -/
def Row.set (r : Row) (c : String) (v : Cell) : Row :=
  match r with
  | [] => [(c, v)]
  | p :: rest => if p.1 == c then (c, v) :: rest else p :: Row.set rest c v

/-- An uploaded table: the column names as read from the file, and its rows. -/
structure Table where
  columns : List String
  rows : List Row
  deriving DecidableEq, Repr

/-- Strip leading and trailing whitespace from a character list. -/
def trimChars (l : List Char) : List Char :=
  ((l.dropWhile Char.isWhitespace).reverse.dropWhile Char.isWhitespace).reverse

/-- Kernel-reducible model of Python `str.strip()`. -/
def strTrim (s : String) : String := String.mk (trimChars s.data)

/-- Kernel-reducible model of Python `str.lower()` on ASCII data. -/
def strLower (s : String) : String := String.mk (s.data.map Char.toLower)

/-- Split a character list at every separator character (separators dropped),
mirroring Python `str.split(sep)` semantics for single-character separators. -/
def splitChars (p : Char → Bool) : List Char → List (List Char)
  | [] => [[]]
  | c :: rest =>
    match splitChars p rest with
    | [] => [[]]
    | g :: gs => if p c then [] :: g :: gs else (c :: g) :: gs

/-- Column-name normalization `df.columns.str.strip().str.lower()`
(app.py lines 289 and 323). -/
def normName (s : String) : String := strLower (strTrim s)

/-- Rename a row's columns to their normalized names. -/
def normalizeRow (r : Row) : Row := r.map (fun p => (normName p.1, p.2))

/-- Normalized column list of a table (app.py lines 323-324). -/
def normCols (t : Table) : List String := t.columns.map normName

/-- Digit characters to a natural number; none if empty or not all digits. -/
def digitsVal (l : List Char) : Option ℕ :=
  if l ≠ [] ∧ l.all Char.isDigit then
    some (l.foldl (fun a c => 10 * a + (c.toNat - 48)) 0)
  else none

/-- Models `pd.to_numeric(x, errors="coerce")` on the characters of a string,
on the domain of plain decimal literals `[+-]digits[.digits]`; other forms
(scientific notation, thousands separators, locale formats) are outside the
modelled domain and coerce to missing, as unparseable strings do in pandas. -/
def parseRatChars (l : List Char) : Option ℚ :=
  let t := trimChars l
  let neg : Bool := match t with | c :: _ => c == '-' | [] => false
  let body : List Char :=
    match t with
    | c :: rest => if c == '-' || c == '+' then rest else c :: rest
    | [] => []
  let parts := splitChars (fun ch => ch == '.') body
  let mag : Option ℚ :=
    match parts.map digitsVal with
    | [some i] => some ((i : ℚ))
    | [some i, some f] => some ((i : ℚ) + (f : ℚ) / (10 : ℚ) ^ parts.getLast!.length)
    | [some i, none] => if parts.getLast!.length = 0 then some ((i : ℚ)) else none
    | [none, some f] =>
      if parts.head!.length = 0 then
        some ((f : ℚ) / (10 : ℚ) ^ parts.getLast!.length)
      else none
    | _ => none
  mag.map (fun q => if neg then -q else q)

/-- Models `pd.to_numeric(x, errors="coerce")` on one cell. -/
def toNumeric (c : Cell) : Option ℚ :=
  match c with
  | .num q => some q
  | .str s => parseRatChars s.data
  | .missing => none

/-- Month abbreviations indexed as in Python `calendar.month_abbr`
(index 0 is the empty placeholder). -/
def monthAbbrTable : List String :=
  ["", "Jan", "Feb", "Mar", "Apr", "May", "Jun",
   "Jul", "Aug", "Sep", "Oct", "Nov", "Dec"]

/-- Full English month names, lowercased, index 0 unused. -/
def monthFullTable : List String :=
  ["", "january", "february", "march", "april", "may", "june",
   "july", "august", "september", "october", "november", "december"]

/-- Models `pd.to_datetime(s, format="%b").month` on one string: exact,
case-insensitive match of a three-letter English month abbreviation. -/
def monthShortParse (s : String) : Option ℕ :=
  (monthAbbrTable.findIdx? (fun m => strLower m == strLower s)).bind
    (fun i => if i = 0 then none else some i)

/-- Models `pd.to_datetime(s, format="%B").month` on one string: exact,
case-insensitive match of a full English month name. -/
def monthFullParse (s : String) : Option ℕ :=
  (monthFullTable.findIdx? (fun m => m == strLower s)).bind
    (fun i => if i = 0 then none else some i)

/-- Models Python `str()` of a cell as produced by `.astype(str)`; numeric
cells never reach the string parsers in `parse_month_to_number` because the
numeric parse short-circuits first, so their rendering is immaterial. -/
def cellToStr (c : Cell) : String :=
  match c with
  | .str s => s
  | .num q => toString q.num
  | .missing => "nan"

/-- Models `parse_month_to_number` (app.py lines 152-156) on one cell:
`numeric.fillna(short_name).fillna(full_name)`, i.e. numeric parse first,
else `%b` abbreviation, else `%B` full month name. -/
def parseMonth (c : Cell) : Option ℚ :=
  match toNumeric c with
  | some q => some q
  | none =>
    match monthShortParse (cellToStr c) with
    | some n => some ((n : ℚ))
    | none => (monthFullParse (cellToStr c)).map (fun n => ((n : ℚ)))

/-- Truncation toward zero: the semantics of pandas `.astype(int)` on a
float value. -/
def ratTrunc (q : ℚ) : ℤ :=
  if q < 0 then -(Rat.floor (-q)) else Rat.floor q

/-- Gregorian leap-year rule, as `pd.to_datetime` applies when validating a
calendar date. -/
def isLeapYear (y : ℕ) : Bool :=
  (y % 4 == 0 && y % 100 != 0) || (y % 400 == 0)

/-- Number of days in a Gregorian month. -/
def daysInMonth (y m : ℕ) : ℕ :=
  if m == 2 then (if isLeapYear y then 29 else 28)
  else if m == 4 || m == 6 || m == 9 || m == 11 then 30
  else 31

/-- Models `pd.to_datetime(x, errors="coerce")` followed by
`.dt.to_period("M")` on ISO-formatted date strings `YYYY-MM-DD` or `YYYY-MM`:
a calendar-impossible month or day coerces to NaT, i.e. to none here.  Other
cell shapes (numeric epoch values, locale-specific formats) are outside the
modelled domain and are treated as unparseable.  Result: (year, month). -/
def parseDateYM (c : Cell) : Option (ℤ × ℤ) :=
  match c with
  | .str s =>
    match (splitChars (fun ch => ch == '-') (trimChars s.data)).map digitsVal with
    | [some y, some m] =>
      if 1 ≤ m ∧ m ≤ 12 then some (((y : ℤ)), ((m : ℤ))) else none
    | [some y, some m, some d] =>
      if 1 ≤ m ∧ m ≤ 12 ∧ 1 ≤ d ∧ d ≤ daysInMonth y m then
        some (((y : ℤ)), ((m : ℤ)))
      else none
    | _ => none
  | _ => none

/-- The column-role mapping submitted with the form, one field per role
(app.py lines 330-336); every field is a raw form string. -/
structure Mapping where
  product_col : String
  total_col : String
  quantity_col : String
  price_col : String
  date_col : String
  year_col : String
  month_col : String
  deriving DecidableEq, Repr

/-- Form-field normalization `.strip().lower()` applied to every role
(app.py lines 330-336). -/
def normalizeMapping (m : Mapping) : Mapping where
  product_col := normName m.product_col
  total_col := normName m.total_col
  quantity_col := normName m.quantity_col
  price_col := normName m.price_col
  date_col := normName m.date_col
  year_col := normName m.year_col
  month_col := normName m.month_col

/-- The four time-basis modes (app.py line 327). -/
inductive TimeMode where
  | date
  | year_month
  | year
  | month
  deriving DecidableEq, Repr

/-- Mode coercion (app.py lines 326-328): `.strip().lower()`, any string not
among the four known modes falls back to `date`. -/
def parseTimeMode (s : String) : TimeMode :=
  let v := normName s
  if v == "year_month" then .year_month
  else if v == "year" then .year
  else if v == "month" then .month
  else .date

/-- The user-facing failures of the `process_data` action. -/
inductive Err where
  | MissingProductColumn
  | MissingRevenueColumns
  | NoValidRows
  | MissingTimeColumns (mode : TimeMode)
  | NoTimeValuesFound
  deriving DecidableEq, Repr

/-- Which branch of the revenue derivation fires (app.py lines 358-372):
`total_col` must be nonempty (Python truthiness) and present; otherwise the
quantity/price branch only requires membership of both columns, with no
nonemptiness guard; otherwise the validation fails. -/
inductive RevPlan where
  | useTotal
  | useQtyPrice
  deriving DecidableEq, Repr

/-- Revenue-derivability decision (app.py lines 358-372). -/
def revenuePlan (m : Mapping) (cols : List String) : Option RevPlan :=
  if m.total_col ≠ "" ∧ m.total_col ∈ cols then some .useTotal
  else if m.quantity_col ∈ cols ∧ m.price_col ∈ cols then some .useQtyPrice
  else none

/-- Wrap an optional number back into a cell (pandas numeric column entry). -/
def optNum (q : Option ℚ) : Cell :=
  match q with
  | some v => Cell.num v
  | none => Cell.missing

/-- Per-row derivation (app.py lines 358-377): `df["total"]` from the chosen
revenue branch, then `df["product"] = df[product_col]` (reading the frame
after the total assignment), then, when the quantity role names an existing
column, `df["quantity"]` as its numeric cast (reading the frame after both
previous assignments). -/
def deriveRow (m : Mapping) (plan : RevPlan) (qtyWritten : Bool) (r : Row) : Row :=
  let totalCell : Cell :=
    match plan with
    | .useTotal => optNum (toNumeric (r.get m.total_col))
    | .useQtyPrice =>
      match toNumeric (r.get m.quantity_col), toNumeric (r.get m.price_col) with
      | some a, some b => Cell.num (a * b)
      | _, _ => Cell.missing
  let r1 := r.set "total" totalCell
  let r2 := r1.set "product" (r1.get m.product_col)
  if qtyWritten then r2.set "quantity" (optNum (toNumeric (r2.get m.quantity_col))) else r2

/-- Row filter of `df.dropna(subset=["product", "total"])` (app.py line 379). -/
def keepRow (r : Row) : Bool :=
  !(r.get "product" == Cell.missing) && !(r.get "total" == Cell.missing)

/-- The derived frame after validation and dropping (app.py lines 358-379):
normalized rows, per-row derivation under the given plan, then the dropna. -/
def derivedRows (t : Table) (m : Mapping) (plan : RevPlan) : List Row :=
  ((t.rows.map normalizeRow).map
    (deriveRow m plan (decide (m.quantity_col ∈ normCols t)))).filter keepRow

/-- The derived frame independent of how the plan was obtained: empty when the
revenue validation fails (in which case app.py never builds it). -/
def validRows (t : Table) (m : Mapping) : List Row :=
  match revenuePlan m (normCols t) with
  | some plan => derivedRows t m plan
  | none => []

/-- Append a column name if not already present: the effect of a pandas
column assignment on `df.columns`. -/
def addCol (cols : List String) (c : String) : List String :=
  if c ∈ cols then cols else cols ++ [c]

/-- Columns of the derived frame: the CSV columns plus the assigned `total`
and `product` columns, plus `quantity` when that role named an existing
column (app.py lines 358-377). -/
def dfColumns (m : Mapping) (cols : List String) : List String :=
  let c2 := addCol (addCol cols "total") "product"
  if m.quantity_col ∈ cols then addCol c2 "quantity" else c2

/-- The numeric value of a derived `total` cell; after the dropna every such
cell is a number. -/
def rowTotal (r : Row) : ℚ :=
  match r.get "total" with
  | .num q => q
  | _ => 0

/-- Pandas `sum()` over a column with `skipna=True`: missing cells contribute
nothing.  (String-valued object columns, which pandas would concatenate, are
outside the modelled domain; no claim exercises them.) -/
def cellQ (c : Cell) : ℚ :=
  match c with
  | .num q => q
  | _ => 0

/-- Ascending order on period keys: lexicographic on (year, month) pairs,
the order `sort_index()` uses for every mode once keys are encoded as pairs. -/
def keyLe (a b : ℤ × ℤ) : Prop :=
  a.1 < b.1 ∨ (a.1 = b.1 ∧ a.2 ≤ b.2)

instance : DecidableRel keyLe := fun a b =>
  inferInstanceAs (Decidable (a.1 < b.1 ∨ (a.1 = b.1 ∧ a.2 ≤ b.2)))

instance : IsTotal (ℤ × ℤ) keyLe where
  total a b := by unfold keyLe; omega

instance : IsTrans (ℤ × ℤ) keyLe where
  trans a b c hab hbc := by unfold keyLe at *; omega

/-- The distinct period keys of a keyed list, in ascending order: the index of
a pandas groupby after `sort_index()`. -/
def groupKeys (ps : List ((ℤ × ℤ) × ℚ)) : List (ℤ × ℤ) :=
  List.insertionSort keyLe (ps.map Prod.fst).dedup

/-- Models `groupby(key)["total"].sum().sort_index()`: for each distinct key in
ascending order, the sum of the values carrying that key. -/
def groupSum (ps : List ((ℤ × ℤ) × ℚ)) : List ((ℤ × ℤ) × ℚ) :=
  (groupKeys ps).map (fun k => (k, ((ps.filter (fun p => p.1 == k)).map Prod.snd).sum))

/-- Period key of one row in `date` mode (app.py lines 402-404): parse the
date column, truncate to (year, month). -/
def dateKeyFn (m : Mapping) (r : Row) : Option (ℤ × ℤ) :=
  parseDateYM (r.get m.date_col)

/-- Period key of one row in `year_month` mode (app.py lines 418-426): numeric
year and parsed month, both required; month filtered to 1..12; both truncated
to integers. -/
def ymKeyFn (m : Mapping) (r : Row) : Option (ℤ × ℤ) :=
  match toNumeric (r.get m.year_col), parseMonth (r.get m.month_col) with
  | some y, some mo =>
    if 1 ≤ mo ∧ mo ≤ 12 then some (ratTrunc y, ratTrunc mo) else none
  | _, _ => none

/-- Period key of one row in `year` mode (app.py lines 441-443): numeric year,
truncated to an integer; encoded as (year, 0). -/
def yearKeyFn (m : Mapping) (r : Row) : Option (ℤ × ℤ) :=
  (toNumeric (r.get m.year_col)).map (fun y => (ratTrunc y, 0))

/-- Month bucket of one month cell (app.py lines 457-460): parse via
`parse_month_to_number`, keep only values in [1, 12], truncate to an integer;
encoded as (0, month). -/
def monthBucket (c : Cell) : Option (ℤ × ℤ) :=
  (parseMonth c).bind
    (fun q => if 1 ≤ q ∧ q ≤ 12 then some ((0 : ℤ), ratTrunc q) else none)

/-- Period key of one row in `month` mode (app.py lines 457-460). -/
def monthKeyFn (m : Mapping) (r : Row) : Option (ℤ × ℤ) :=
  monthBucket (r.get m.month_col)

/-- Period-key extractor for each mode. -/
def modeKeyFn (mode : TimeMode) (m : Mapping) : Row → Option (ℤ × ℤ) :=
  match mode with
  | .date => dateKeyFn m
  | .year_month => ymKeyFn m
  | .year => yearKeyFn m
  | .month => monthKeyFn m

/-- Two-digit zero padding for month numbers in period labels. -/
def pad2 (n : ℤ) : String :=
  if n < 10 then "0" ++ toString n else toString n

/-- Four-digit zero padding for the year part of a pandas `Period` string
(pandas renders year 5 as "0005"); defined on the modelled domain of
nonnegative years. -/
def pad4 (n : ℤ) : String :=
  if n < 10 then "000" ++ toString n
  else if n < 100 then "00" ++ toString n
  else if n < 1000 then "0" ++ toString n
  else toString n

/-- Month-number to three-letter abbreviation, `calendar.month_abbr[int(m)]`
(app.py line 461). -/
def monthAbbrZ (n : ℤ) : String := monthAbbrTable.getD n.toNat ""

/-- Bucket label for each mode: `"YYYY-MM"` period strings for `date` and
`year_month`, the stringified integer year for `year`, and the three-letter
month abbreviation for `month` (app.py lines 404-405, 427-428, 443-444,
460-461). -/
def modeLabel (mode : TimeMode) : ℤ × ℤ → String :=
  match mode with
  | .date => fun k => pad4 k.1 ++ "-" ++ pad2 k.2
  | .year_month => fun k => pad4 k.1 ++ "-" ++ pad2 k.2
  | .year => fun k => toString k.1
  | .month => fun k => monthAbbrZ k.2

/-- Missing time-basis columns for the selected mode (app.py lines 393, 409,
432, 448): checked against the CSV's normalized column list. -/
def missingTime (mode : TimeMode) (m : Mapping) (cols : List String) : Prop :=
  match mode with
  | .date => m.date_col ∉ cols
  | .year_month => m.year_col ∉ cols ∨ m.month_col ∉ cols
  | .year => m.year_col ∉ cols
  | .month => m.month_col ∉ cols

instance (mode : TimeMode) (m : Mapping) (cols : List String) :
    Decidable (missingTime mode m cols) := by
  unfold missingTime
  cases mode <;> infer_instance

/-- The (key, total) pairs a bucketing pass derives from the surviving rows:
rows without a derivable period key contribute nothing. -/
def keyedPairs (kf : Row → Option (ℤ × ℤ)) (rows : List Row) : List ((ℤ × ℤ) × ℚ) :=
  rows.filterMap (fun r => (kf r).map (fun k => (k, rowTotal r)))

/-- Time-bucketing and aggregation (app.py lines 390-472, shared shape of the
four branches): derive a period key per row, drop rows without one, group by
key, sum `total` per group in ascending key order; fail when nothing remains
to plot (`chart_df.empty or not labels`, line 464). -/
def bucketAgg (kf : Row → Option (ℤ × ℤ)) (lf : ℤ × ℤ → String) (rows : List Row) :
    Option (List String × List ℚ) :=
  if (keyedPairs kf rows).isEmpty then none
  else
    some ((groupSum (keyedPairs kf rows)).map (fun kv => lf kv.1),
      (groupSum (keyedPairs kf rows)).map Prod.snd)

/-- The quantity signal deciding the leaderboard branch (app.py line 475):
presence of a column literally named `quantity` in the derived frame, with
some non-missing value among the surviving rows. -/
def quantitySignal (cols : List String) (rows : List Row) : Bool :=
  decide ("quantity" ∈ cols) && rows.any (fun r => !(r.get "quantity" == Cell.missing))

/-- Lexicographic order on character lists by code point: the order Python
uses to compare strings. -/
def charListLe : List Char → List Char → Bool
  | [], _ => true
  | _ :: _, [] => false
  | a :: as, b :: bs =>
    if a.val < b.val then true
    else if a.val == b.val then charListLe as bs
    else false

/-- Total order used to model the sorted group index of a pandas groupby over
the product column.  Pandas sorts the keys of a same-typed object column; the
cross-type ordering here is a modelling choice that no claim exercises. -/
def cellLeB (a b : Cell) : Bool :=
  match a, b with
  | .missing, _ => true
  | .num _, .missing => false
  | .num x, .num y => decide (x ≤ y)
  | .num _, .str _ => true
  | .str x, .str y => charListLe x.data y.data
  | .str _, _ => false

/-- Models `groupby("product")[col].sum()` over the surviving rows with keys in
ascending order, followed by `.idxmax()`: the first key attaining the maximal
group sum.  Empty input (on which pandas raises) yields the missing cell; it
is unreachable behind the `NoValidRows` check. -/
def bestBy (rows : List Row) (f : Row → ℚ) : Cell :=
  let ps := rows.map (fun r => (r.get "product", f r))
  let keys := List.insertionSort (fun a b => cellLeB a b = true) (ps.map Prod.fst).dedup
  let g := keys.map (fun k => (k, ((ps.filter (fun p => p.1 == k)).map Prod.snd).sum))
  match g with
  | [] => Cell.missing
  | x :: xs => (xs.foldl (fun acc p => if p.2 > acc.2 then p else acc) x).1

/-- Leaderboard selection (app.py lines 475-478). -/
def bestProduct (cols : List String) (rows : List Row) : Cell :=
  if quantitySignal cols rows then bestBy rows (fun r => cellQ (r.get "quantity"))
  else bestBy rows rowTotal

/-- The aggregation outcome rendered back to the page (app.py lines 501-512). -/
structure Resp where
  revenue : ℚ
  product : Cell
  labels : List String
  values : List ℚ
  used_basis : TimeMode
  deriving DecidableEq, Repr

deriving instance DecidableEq for Except

/-- The `process_data` action of `index()` (app.py lines 309-512), from the
re-read table and submitted mapping to either a rendered error or the
aggregation response.  Validation order is exactly the source's: product
column, then revenue derivability, then derivation with its dropna and the
`NoValidRows` check, and only then the per-mode time-column check and the
time bucketing. -/
def processData (t : Table) (m0 : Mapping) (modeStr : String) : Except Err Resp :=
  let cols := normCols t
  let m := normalizeMapping m0
  let mode := parseTimeMode modeStr
  if m.product_col = "" ∨ m.product_col ∉ cols then .error .MissingProductColumn
  else
    match revenuePlan m cols with
    | none => .error .MissingRevenueColumns
    | some plan =>
      let rows2 := derivedRows t m plan
      if rows2.isEmpty then .error .NoValidRows
      else if missingTime mode m cols then .error (.MissingTimeColumns mode)
      else
        match bucketAgg (modeKeyFn mode m) (modeLabel mode) rows2 with
        | none => .error .NoTimeValuesFound
        | some (ls, vs) =>
          .ok
            { revenue := (rows2.map rowTotal).sum
              product := bestProduct (dfColumns m cols) rows2
              labels := ls
              values := vs
              used_basis := mode }

/-- The sum of the totals of the valid rows whose period key cannot be derived
under the selected mode: these rows are dropped from bucketing (app.py lines
403, 420-421, 442, 458-459) but still count toward `total_revenue`
(line 474), which is computed over the pre-bucketing frame `df`. -/
def droppedTotal (t : Table) (m0 : Mapping) (modeStr : String) : ℚ :=
  (((validRows t (normalizeMapping m0)).filter
      (fun r => (modeKeyFn (parseTimeMode modeStr) (normalizeMapping m0) r).isNone)).map
    rowTotal).sum

/-- One persisted chart-history entry (app.py lines 120-129).  The generated
`uuid` id and `datetime.now()` timestamp are modelled as data carried by the
entry. -/
structure HistoryEntry where
  id : String
  timestamp : String
  labels : List String
  values : List ℚ
  revenue : ℚ
  product : String
  time_mode : String
  filename : String
  deriving DecidableEq, Repr

/-- Models `save_chart_to_history` (app.py lines 118-138): prepend the new
entry, truncate to the newest 20, try to write the file — any write failure
(`writeOk = false`) is swallowed, leaving the stored history unchanged — and
return the new entry's id regardless.  Result: (returned id, stored
history). -/
def saveChartToHistory (hist : List HistoryEntry) (e : HistoryEntry) (writeOk : Bool) :
    String × List HistoryEntry :=
  let newHist := (e :: hist).take 20
  (e.id, if writeOk then newHist else hist)

/-- Render a cell the way `str(product)` does for the history entry; numeric
best products are outside the concrete scenarios, so their rendering only
needs to be some fixed injection. -/
def cellProductStr (c : Cell) : String :=
  match c with
  | .str s => s
  | .num q => toString q.num
  | .missing => "nan"

/-- Mode name persisted in a history entry. -/
def timeModeStr (mode : TimeMode) : String :=
  match mode with
  | .date => "date"
  | .year_month => "year_month"
  | .year => "year"
  | .month => "month"

/-- The `process_data` action together with the history side effect (app.py
lines 498-512): on success the aggregation is recorded to history — a failing
history write (`writeOk = false`) is swallowed — and the very same response is
rendered.  Result: the rendered outcome paired with the stored history. -/
def processWithHistory (t : Table) (m0 : Mapping) (modeStr : String)
    (hist : List HistoryEntry) (genId genTs fname : String) (writeOk : Bool) :
    Except Err (Resp × List HistoryEntry) :=
  match processData t m0 modeStr with
  | .error e => .error e
  | .ok resp =>
    let entry : HistoryEntry :=
      { id := genId
        timestamp := genTs
        labels := resp.labels
        values := resp.values
        revenue := resp.revenue
        product := cellProductStr resp.product
        time_mode := timeModeStr resp.used_basis
        filename := fname }
    .ok (resp, (saveChartToHistory hist entry writeOk).2)

/-- The directory `app.py` lives in (`BASE_DIR`, line 14), an environment
constant. -/
def BASE_DIR : String := "/base"

/-- Models `normalize_storage_path` (app.py lines 21-32): empty or
whitespace-only input falls back to a directory under `BASE_DIR`; an absolute
path is kept; a relative path is joined onto `BASE_DIR`.  `os.path.abspath`'s
`..`-resolution is modelled as the identity on already-absolute paths. -/
def normalizeStoragePath (pathValue fallbackName : String) : String :=
  if pathValue = "" then BASE_DIR ++ "/" ++ fallbackName
  else
    let cleaned := strTrim pathValue
    if cleaned = "" then BASE_DIR ++ "/" ++ fallbackName
    else if cleaned.data.head? = some '/' then cleaned
    else BASE_DIR ++ "/" ++ cleaned

/-- The storage configuration state: the two in-memory module globals
`UPLOAD_FOLDER` / `OUTPUT_FOLDER` and the persisted `config.json` contents. -/
structure StorageState where
  upload : String
  output : String
  config : String × String
  deriving DecidableEq, Repr

/-- Models `apply_storage_paths` (app.py lines 63-68): the two globals are
reassigned first, then the two `os.makedirs` calls run, either of which may
raise (`mkdirOk` says which paths can be created).  The returned flag is
whether the whole call succeeded; the globals keep their new values even on
failure. -/
def applyStoragePaths (s : StorageState) (u o : String) (mkdirOk : String → Bool) :
    StorageState × Bool :=
  ({ s with upload := u, output := o }, mkdirOk u && mkdirOk o)

/-- Models the POST branch of `settings_page` (app.py lines 548-564): normalize
both inputs, run `apply_storage_paths` then `save_storage_config` inside one
try block; an exception from either leaves whatever state was already mutated
and renders an error.  Result: (new state, success flag). -/
def settingsPost (s : StorageState) (uploadInput outputInput : String)
    (mkdirOk : String → Bool) (saveOk : Bool) : StorageState × Bool :=
  let u := normalizeStoragePath uploadInput "uploads"
  let o := normalizeStoragePath outputInput "output"
  let ap := applyStoragePaths s u o mkdirOk
  if ap.2 then
    if saveOk then ({ ap.1 with config := (u, o) }, true)
    else (ap.1, false)
  else (ap.1, false)

theorem sum_map_filter_split {α : Type} (p : α → Bool) (f : α → ℚ) (l : List α) :
    ((l.filter p).map f).sum + ((l.filter (fun a => !(p a))).map f).sum = (l.map f).sum := by
  induction l with
  | nil => simp
  | cons a l ih =>
    by_cases h : p a
    · simp only [List.filter_cons, h, Bool.not_true, if_true, List.map_cons, List.sum_cons,
        if_false, Bool.false_eq_true]
      linarith
    · simp only [List.filter_cons, Bool.not_eq_true] at *
      simp only [h, Bool.not_false, if_true, if_false, List.map_cons, List.sum_cons,
        Bool.false_eq_true]
      linarith

theorem sum_filterKeys_eq {ks : List (ℤ × ℤ)} {ps : List ((ℤ × ℤ) × ℚ)}
    (hnd : ks.Nodup) (hcov : ∀ p ∈ ps, p.1 ∈ ks) :
    (ks.map (fun k => ((ps.filter (fun p => p.1 == k)).map Prod.snd).sum)).sum
      = (ps.map Prod.snd).sum := by
  induction ks generalizing ps with
  | nil =>
    cases ps with
    | nil => simp
    | cons p ps => exact absurd (hcov p (List.mem_cons_self p ps)) (List.not_mem_nil _)
  | cons k ks ih =>
    obtain ⟨hk, hnd'⟩ := List.nodup_cons.mp hnd
    have hrest : ∀ k' ∈ ks,
        ps.filter (fun p => p.1 == k')
          = (ps.filter (fun p => !(p.1 == k))).filter (fun p => p.1 == k') := by
      intro k' hk'
      rw [List.filter_filter]
      apply List.filter_congr
      intro p _
      by_cases hpk : p.1 = k'
      · have hkk : k' ≠ k := fun hEq => hk (hEq ▸ hk')
        simp [hpk, hkk]
      · simp [hpk]
    have hmapeq :
        ks.map (fun k' => ((ps.filter (fun p => p.1 == k')).map Prod.snd).sum)
          = ks.map (fun k' =>
              (((ps.filter (fun p => !(p.1 == k))).filter (fun p => p.1 == k')).map
                Prod.snd).sum) := by
      apply List.map_congr_left
      intro k' hk'
      rw [hrest k' hk']
    have hcov' : ∀ p ∈ ps.filter (fun p => !(p.1 == k)), p.1 ∈ ks := by
      intro q hq
      have hqmem : q ∈ ps := List.mem_of_mem_filter hq
      have hqne : q.1 ≠ k := by
        have := List.of_mem_filter hq
        simpa using this
      rcases List.mem_cons.mp (hcov q hqmem) with h | h
      · exact absurd h hqne
      · exact h
    have := ih hnd' hcov'
    calc ((k :: ks).map (fun k' => ((ps.filter (fun p => p.1 == k')).map Prod.snd).sum)).sum
        = ((ps.filter (fun p => p.1 == k)).map Prod.snd).sum
            + (ks.map (fun k' => ((ps.filter (fun p => p.1 == k')).map Prod.snd).sum)).sum := by
          simp
      _ = ((ps.filter (fun p => p.1 == k)).map Prod.snd).sum
            + ((ps.filter (fun p => !(p.1 == k))).map Prod.snd).sum := by
          rw [hmapeq, this]
      _ = (ps.map Prod.snd).sum := sum_map_filter_split (fun p => p.1 == k) Prod.snd ps

theorem groupSum_snd_sum (ps : List ((ℤ × ℤ) × ℚ)) :
    ((groupSum ps).map Prod.snd).sum = (ps.map Prod.snd).sum := by
  calc ((groupSum ps).map Prod.snd).sum
      = ((groupKeys ps).map
          (fun k => ((ps.filter (fun p => p.1 == k)).map Prod.snd).sum)).sum := by
        unfold groupSum
        simp [List.map_map, Function.comp_def]
    _ = ((ps.map Prod.fst).dedup.map
          (fun k => ((ps.filter (fun p => p.1 == k)).map Prod.snd).sum)).sum := by
        unfold groupKeys
        exact ((List.perm_insertionSort keyLe _).map _).sum_eq
    _ = (ps.map Prod.snd).sum :=
        sum_filterKeys_eq (List.nodup_dedup _)
          (fun p hp => List.mem_dedup.mpr (List.mem_map_of_mem Prod.fst hp))

theorem keyedPairs_snd (kf : Row → Option (ℤ × ℤ)) (rows : List Row) :
    (keyedPairs kf rows).map Prod.snd
      = (rows.filter (fun r => (kf r).isSome)).map rowTotal := by
  induction rows with
  | nil => simp [keyedPairs]
  | cons r rows ih =>
    cases h : kf r with
    | none => simpa [keyedPairs, List.filterMap_cons, h, List.filter_cons] using ih
    | some k => simpa [keyedPairs, List.filterMap_cons, h, List.filter_cons] using ih

theorem keyedPairs_fst_mem {kf : Row → Option (ℤ × ℤ)} {k : ℤ × ℤ} :
    ∀ {rows : List Row}, k ∈ (keyedPairs kf rows).map Prod.fst → ∃ r ∈ rows, kf r = some k := by
  intro rows
  induction rows with
  | nil => intro h; simp [keyedPairs] at h
  | cons r rows ih =>
    intro h
    cases hr : kf r with
    | none =>
      simp only [keyedPairs, List.filterMap_cons, hr] at h
      rcases ih h with ⟨r', hr', hk⟩
      exact ⟨r', List.mem_cons_of_mem r hr', hk⟩
    | some k' =>
      simp only [keyedPairs, List.filterMap_cons, hr] at h
      simp only [Option.map_some', List.map_cons, List.mem_cons] at h
      rcases h with h | h
      · refine ⟨r, List.mem_cons_self r rows, ?_⟩
        rw [hr, h]
      · rcases ih h with ⟨r', hr', hk⟩
        exact ⟨r', List.mem_cons_of_mem r hr', hk⟩

theorem bucketAgg_some {kf : Row → Option (ℤ × ℤ)} {lf : ℤ × ℤ → String} {rows : List Row}
    {ls : List String} {vs : List ℚ} (h : bucketAgg kf lf rows = some (ls, vs)) :
    ls = (groupSum (keyedPairs kf rows)).map (fun kv => lf kv.1)
      ∧ vs = (groupSum (keyedPairs kf rows)).map Prod.snd := by
  unfold bucketAgg at h
  by_cases he : (keyedPairs kf rows).isEmpty
  · rw [if_pos he] at h
    exact absurd h (by simp)
  · rw [if_neg he] at h
    have := Option.some.inj h
    exact ⟨(congrArg Prod.fst this).symm, (congrArg Prod.snd this).symm⟩

theorem groupKeys_mem {ps : List ((ℤ × ℤ) × ℚ)} {k : ℤ × ℤ} (hk : k ∈ groupKeys ps) :
    k ∈ ps.map Prod.fst := by
  unfold groupKeys at hk
  exact List.mem_dedup.mp ((List.perm_insertionSort keyLe _).mem_iff.mp hk)

theorem groupKeys_sorted (ps : List ((ℤ × ℤ) × ℚ)) : (groupKeys ps).Pairwise keyLe :=
  List.sorted_insertionSort keyLe _

theorem groupKeys_nodup (ps : List ((ℤ × ℤ) × ℚ)) : (groupKeys ps).Nodup :=
  ((List.perm_insertionSort keyLe _).nodup_iff).mpr (List.nodup_dedup _)

theorem pairwise_and_of {α : Type} {R S : α → α → Prop} :
    ∀ {l : List α}, l.Pairwise R → l.Pairwise S → l.Pairwise (fun a b => R a b ∧ S a b)
  | [], _, _ => List.Pairwise.nil
  | _ :: _, List.Pairwise.cons hR hR', List.Pairwise.cons hS hS' =>
    List.Pairwise.cons (fun b hb => ⟨hR b hb, hS b hb⟩) (pairwise_and_of hR' hS')

theorem ratTrunc_bounds {q : ℚ} (h1 : 1 ≤ q) (h12 : q ≤ 12) :
    1 ≤ ratTrunc q ∧ ratTrunc q ≤ 12 := by
  unfold ratTrunc
  rw [if_neg (by linarith : ¬q < 0)]
  refine ⟨Rat.le_floor.mpr (by exact_mod_cast h1), ?_⟩
  by_contra hgt
  push_neg at hgt
  have h13 : (13 : ℤ) ≤ Rat.floor q := by omega
  have : ((13 : ℤ) : ℚ) ≤ q := Rat.le_floor.mp h13
  have : (13 : ℚ) ≤ q := by exact_mod_cast this
  linarith

theorem monthBucket_shape {c : Cell} {k : ℤ × ℤ} (h : monthBucket c = some k) :
    k.1 = 0 ∧ 1 ≤ k.2 ∧ k.2 ≤ 12 := by
  unfold monthBucket at h
  cases hp : parseMonth c with
  | none => rw [hp] at h; exact absurd h (by simp)
  | some q =>
    rw [hp] at h
    simp only [Option.some_bind] at h
    by_cases hb : 1 ≤ q ∧ q ≤ 12
    · rw [if_pos hb] at h
      have hk := Option.some.inj h
      rcases ratTrunc_bounds hb.1 hb.2 with ⟨hlo, hhi⟩
      subst hk
      exact ⟨rfl, hlo, hhi⟩
    · rw [if_neg hb] at h
      exact absurd h (by simp)

theorem monthAbbrZ_mem {x : ℤ} (h1 : 1 ≤ x) (h12 : x ≤ 12) :
    monthAbbrZ x ∈ monthAbbrTable.tail := by
  interval_cases x <;> decide

/-- Success elimination for `processData`: a rendered response pins down the
revenue plan, the surviving rows, the bucketing output, and every response
field. -/
theorem processData_ok_elim {t : Table} {m0 : Mapping} {s : String} {resp : Resp}
    (h : processData t m0 s = .ok resp) :
    ∃ plan, revenuePlan (normalizeMapping m0) (normCols t) = some plan ∧
      derivedRows t (normalizeMapping m0) plan ≠ [] ∧
      ∃ ls vs,
        bucketAgg (modeKeyFn (parseTimeMode s) (normalizeMapping m0))
            (modeLabel (parseTimeMode s)) (derivedRows t (normalizeMapping m0) plan)
          = some (ls, vs) ∧
        resp =
          { revenue := ((derivedRows t (normalizeMapping m0) plan).map rowTotal).sum
            product :=
              bestProduct (dfColumns (normalizeMapping m0) (normCols t))
                (derivedRows t (normalizeMapping m0) plan)
            labels := ls
            values := vs
            used_basis := parseTimeMode s } := by
  simp only [processData] at h
  split at h
  · exact absurd h (by simp)
  · split at h
    · exact absurd h (by simp)
    · rename_i plan hplan
      refine ⟨plan, hplan, ?_⟩
      split at h
      · exact absurd h (by simp)
      · rename_i hrows
        split at h
        · exact absurd h (by simp)
        · split at h
          · exact absurd h (by simp)
          · rename_i ls vs hagg
            refine ⟨by simpa using hrows, ls, vs, hagg, ?_⟩
            exact (Except.ok.inj h).symm

example : toNumeric (Cell.str "3.5") = some (7 / 2 : ℚ) := by decide
example : toNumeric (Cell.str "10") = some (10 : ℚ) := by decide
example : toNumeric (Cell.str "-5") = some (-5 : ℚ) := by decide
example : toNumeric (Cell.str "bogus") = none := by decide
example : parseMonth (Cell.str "Jan") = some 1 := by decide
example : parseMonth (Cell.str "February") = some 2 := by decide
example : parseMonth (Cell.num 13) = some 13 := by decide
example : parseMonth (Cell.str "bogus") = none := by decide
example : ratTrunc (7 / 2) = 3 := by decide
example : parseDateYM (Cell.str "2024-01-05") = some (2024, 1) := by decide
example : normName " Product " = "product" := by decide

/-! ## Claim C4 -/

/-- Scenario B table: month values Jan, February, 13, bogus with row totals
1, 2, 3, 4. -/
def tblB : Table :=
  { columns := ["product", "total", "month"]
    rows :=
      [[("product", Cell.str "A"), ("total", Cell.num 1), ("month", Cell.str "Jan")],
       [("product", Cell.str "A"), ("total", Cell.num 2), ("month", Cell.str "February")],
       [("product", Cell.str "A"), ("total", Cell.num 3), ("month", Cell.num 13)],
       [("product", Cell.str "A"), ("total", Cell.num 4), ("month", Cell.str "bogus")]] }

/-- Scenario B mapping: product, total and month roles set, the rest blank. -/
def mapB : Mapping :=
  { product_col := "product", total_col := "total", quantity_col := "", price_col := ""
    date_col := "", year_col := "", month_col := "month" }

/-- C4: in month mode on the table with month values [Jan, February, 13,
bogus] and totals [1, 2, 3, 4], the rows with month 13 and bogus are dropped
from bucketing while their totals still count, so the result is labels
[Jan, Feb], values [1, 2] and total revenue 10. -/
theorem scenarioB_month_agg :
    processData tblB mapB "month" =
      .ok { revenue := 10, product := Cell.str "A", labels := ["Jan", "Feb"],
            values := [1, 2], used_basis := TimeMode.month } := by decide

/-! ## Claim C8 -/

/-- A minimal history entry whose id records its recording order. -/
def histN (i : ℕ) : HistoryEntry :=
  { id := toString i, timestamp := "", labels := [], values := [], revenue := 0
    product := "", time_mode := "", filename := "" }

/-- The stored history after 21 successive successful recordings starting from
an empty history. -/
def hist21 : List HistoryEntry :=
  (List.range 21).foldl (fun h i => (saveChartToHistory h (histN i) true).2) []

/-- C8: every recording prepends the new entry at the head and truncates the
stored history to at most 20 entries; after 21 successive recordings starting
from an empty history the length is exactly 20 and the first-recorded entry
(id "0") is gone. -/
theorem history_cap :
    (∀ (hist : List HistoryEntry) (e : HistoryEntry),
      (saveChartToHistory hist e true).2 = (e :: hist).take 20) ∧
    (∀ (hist : List HistoryEntry) (e : HistoryEntry),
      ((saveChartToHistory hist e true).2).head? = some e) ∧
    (∀ (hist : List HistoryEntry) (e : HistoryEntry),
      ((saveChartToHistory hist e true).2).length = min 20 (hist.length + 1)) ∧
    (hist21.length = 20 ∧ "0" ∉ hist21.map HistoryEntry.id) := by
  refine ⟨fun hist e => rfl, fun hist e => rfl, fun hist e => ?_, by decide, by decide⟩
  simp only [saveChartToHistory, if_true, List.length_take, List.length_cons]

/-! ## Claim C10 -/

/-- C10: recording to history never fails the request: whatever the outcome of
the history file write, `save_chart_to_history` returns the new entry's id,
and the rendered aggregation response is exactly the one `processData`
computed, independent of the stored history and of the write outcome. -/
theorem history_write_error_swallowed :
    (∀ (hist : List HistoryEntry) (e : HistoryEntry) (writeOk : Bool),
      (saveChartToHistory hist e writeOk).1 = e.id) ∧
    (∀ (t : Table) (m0 : Mapping) (s : String) (hist : List HistoryEntry)
      (genId genTs fname : String) (writeOk : Bool),
      (processWithHistory t m0 s hist genId genTs fname writeOk).map Prod.fst
        = processData t m0 s) := by
  refine ⟨fun hist e writeOk => rfl, fun t m0 s hist gid gts fn ok => ?_⟩
  unfold processWithHistory
  cases processData t m0 s <;> rfl

/-! ## Claim C9 -/

/-- One-row table whose month cell is the fractional string "3.5". -/
def tblFrac : Table :=
  { columns := ["product", "total", "month"]
    rows := [[("product", Cell.str "A"), ("total", Cell.num 4), ("month", Cell.str "3.5")]] }

/-- Mapping for the fractional-month table. -/
def mapFrac : Mapping :=
  { product_col := "product", total_col := "total", quantity_col := "", price_col := ""
    date_col := "", year_col := "", month_col := "month" }

/-- One-row table for the year_month half of the claim: year 2024, month
"3.5". -/
def tblFracYM : Table :=
  { columns := ["product", "total", "year", "month"]
    rows :=
      [[("product", Cell.str "A"), ("total", Cell.num 4), ("year", Cell.num 2024),
        ("month", Cell.str "3.5")]] }

/-- Mapping for the fractional-month year_month table. -/
def mapFracYM : Mapping :=
  { product_col := "product", total_col := "total", quantity_col := "", price_col := ""
    date_col := "", year_col := "year", month_col := "month" }

/-- C9: in month mode and in year_month mode, a month cell parsing to a
number with fractional part inside [1, 12] is not dropped: it passes the
range filter and is truncated toward zero to an integer month, so the row is
bucketed into that month.  The first conjunct is the month-mode key
derivation for any such value, the second the year_month key derivation for
any row whose year is numeric and whose month parses to such a value, and the
last two run the full pipeline in each mode on a month of 3.5, which lands in
March. -/
theorem month_fractional_truncation :
    (∀ q : ℚ, 1 ≤ q → q ≤ 12 → monthBucket (Cell.num q) = some (0, ratTrunc q)) ∧
    (∀ (m : Mapping) (r : Row) (y q : ℚ),
      toNumeric (r.get m.year_col) = some y → parseMonth (r.get m.month_col) = some q →
      1 ≤ q → q ≤ 12 → ymKeyFn m r = some (ratTrunc y, ratTrunc q)) ∧
    processData tblFrac mapFrac "month" =
      .ok { revenue := 4, product := Cell.str "A", labels := ["Mar"],
            values := [4], used_basis := TimeMode.month } ∧
    processData tblFracYM mapFracYM "year_month" =
      .ok { revenue := 4, product := Cell.str "A", labels := ["2024-03"],
            values := [4], used_basis := TimeMode.year_month } := by
  refine ⟨fun q h1 h12 => ?_, fun m r y q hy hq h1 h12 => ?_, by decide, by decide⟩
  · unfold monthBucket
    have hp : parseMonth (Cell.num q) = some q := rfl
    rw [hp, Option.some_bind, if_pos ⟨h1, h12⟩]
  · unfold ymKeyFn
    rw [hy, hq]
    show (if 1 ≤ q ∧ q ≤ 12 then some (ratTrunc y, ratTrunc q) else none)
        = some (ratTrunc y, ratTrunc q)
    rw [if_pos ⟨h1, h12⟩]

/-- C9 witness: the general statements applied at the concrete month value
7/2 = 3.5: the month-mode key is month 3, and with year 2024 the year_month
key is (2024, 3). -/
theorem month_fractional_truncation_witness :
    monthBucket (Cell.num (7 / 2)) = some (0, 3) ∧
    ymKeyFn mapFracYM [("year", Cell.num 2024), ("month", Cell.str "3.5")]
      = some (2024, 3) := by
  constructor
  · exact (month_fractional_truncation.1 (7 / 2) (by norm_num) (by norm_num)).trans
      (by decide)
  · exact (month_fractional_truncation.2.1 mapFracYM
      [("year", Cell.num 2024), ("month", Cell.str "3.5")] 2024 (7 / 2)
      (by decide) (by decide) (by norm_num) (by norm_num)).trans (by decide)

/-! ## Claim C3 -/

/-- Two-row table whose second row has a negative total and an unbucketable
month value. -/
def tblNeg : Table :=
  { columns := ["product", "total", "month"]
    rows :=
      [[("product", Cell.str "A"), ("total", Cell.num 10), ("month", Cell.str "Jan")],
       [("product", Cell.str "A"), ("total", Cell.num (-5)), ("month", Cell.str "bogus")]] }

/-- Mapping for the negative-total table. -/
def mapNeg : Mapping :=
  { product_col := "product", total_col := "total", quantity_col := "", price_col := ""
    date_col := "", year_col := "", month_col := "month" }

/-- C3 counterexample: on a table where the row dropped from bucketing
carries total -5, the sum of the plotted values is 10 while total revenue is
5, so `sum(values) <= total_revenue` fails. -/
theorem agg_sum_cex :
    (processData tblNeg mapNeg "month").map (fun r => (r.values.sum, r.revenue))
        = .ok ((10 : ℚ), (5 : ℚ)) ∧
      ¬((10 : ℚ) ≤ (5 : ℚ)) := by
  constructor
  · decide
  · norm_num

/-- C3 (amended): for every run on which aggregation succeeds, the sum of the
plotted values plus the totals of the rows dropped during time-bucketing
equals total revenue; whenever that dropped sum is nonnegative (in particular
when all row totals are nonnegative) the plotted sum is at most total
revenue, with equality iff the dropped totals sum to zero (not: iff no row
was dropped — a dropped row may carry a zero or negative total). -/
theorem agg_sum_amended (t : Table) (m0 : Mapping) (s : String) (resp : Resp)
    (h : processData t m0 s = .ok resp) :
    resp.values.sum + droppedTotal t m0 s = resp.revenue ∧
    (0 ≤ droppedTotal t m0 s →
      resp.values.sum ≤ resp.revenue ∧
        (resp.values.sum = resp.revenue ↔ droppedTotal t m0 s = 0)) := by
  obtain ⟨plan, hplan, hrows, ls, vs, hagg, hresp⟩ := processData_ok_elim h
  obtain ⟨hls, hvs⟩ := bucketAgg_some hagg
  have hvr : validRows t (normalizeMapping m0) = derivedRows t (normalizeMapping m0) plan := by
    unfold validRows
    rw [hplan]
  have hdrop : droppedTotal t m0 s
      = (((derivedRows t (normalizeMapping m0) plan).filter
          (fun r => !(modeKeyFn (parseTimeMode s) (normalizeMapping m0) r).isSome)).map
        rowTotal).sum := by
    have hfc : (derivedRows t (normalizeMapping m0) plan).filter
          (fun r => (modeKeyFn (parseTimeMode s) (normalizeMapping m0) r).isNone)
        = (derivedRows t (normalizeMapping m0) plan).filter
          (fun r => !(modeKeyFn (parseTimeMode s) (normalizeMapping m0) r).isSome) :=
      List.filter_congr
        (fun r _ => by cases modeKeyFn (parseTimeMode s) (normalizeMapping m0) r <;> rfl)
    unfold droppedTotal
    rw [hvr, hfc]
  have hsum : resp.values.sum
      = (((derivedRows t (normalizeMapping m0) plan).filter
          (fun r => (modeKeyFn (parseTimeMode s) (normalizeMapping m0) r).isSome)).map
        rowTotal).sum := by
    rw [hresp]
    dsimp only
    rw [hvs, groupSum_snd_sum, keyedPairs_snd]
  have hrev : resp.revenue = ((derivedRows t (normalizeMapping m0) plan).map rowTotal).sum := by
    rw [hresp]
  have hid : resp.values.sum + droppedTotal t m0 s = resp.revenue := by
    rw [hsum, hdrop, hrev]
    exact sum_map_filter_split _ rowTotal _
  refine ⟨hid, fun hnn => ⟨by linarith, fun he => by linarith, fun hz => by linarith⟩⟩

/-- Success run used to witness the amended C3 statement. -/
def tblW3 : Table :=
  { columns := ["product", "total", "month"]
    rows :=
      [[("product", Cell.str "A"), ("total", Cell.num 3), ("month", Cell.str "Jan")],
       [("product", Cell.str "A"), ("total", Cell.num 2), ("month", Cell.str "oops")]] }

/-- C3 witness: the amended statement applied to a concrete successful run
whose dropped row carries total 2: the plotted sum 3 plus the dropped sum 2
equals the revenue 5, and equality of plotted sum and revenue fails even
though the run succeeded. -/
theorem agg_sum_amended_witness :
    (3 : ℚ) + droppedTotal tblW3 mapNeg "month" = 5 ∧
      droppedTotal tblW3 mapNeg "month" = 2 := by
  have h := agg_sum_amended tblW3 mapNeg "month"
    { revenue := 5, product := Cell.str "A", labels := ["Jan"], values := [3],
      used_basis := TimeMode.month } (by decide)
  refine ⟨?_, by decide⟩
  simpa using h.1

/-! ## Claim C7 -/

theorem pairwise_imp_mem {α : Type} {R S : α → α → Prop} :
    ∀ {l : List α}, (∀ a ∈ l, ∀ b ∈ l, R a b → S a b) → l.Pairwise R → l.Pairwise S := by
  intro l
  induction l with
  | nil => exact fun _ _ => List.Pairwise.nil
  | cons a l ih =>
    intro hi h
    rcases List.pairwise_cons.mp h with ⟨ha, h'⟩
    refine List.Pairwise.cons ?_ ?_
    · intro b hb
      exact hi a (List.mem_cons_self a l) b (List.mem_cons_of_mem a hb) (ha b hb)
    · exact ih (fun x hx y hy hr =>
        hi x (List.mem_cons_of_mem a hx) y (List.mem_cons_of_mem a hy) hr) h'

/-- C7: whenever month-mode aggregation succeeds, the labels are exactly the
images under the month-abbreviation table of a strictly increasing list of
month numbers in [1, 12]; in particular every label is one of Jan..Dec and
the labels appear in calendar order regardless of input order or frequency. -/
theorem month_labels_calendar_order (t : Table) (m0 : Mapping) (s : String) (resp : Resp)
    (hm : parseTimeMode s = TimeMode.month) (h : processData t m0 s = .ok resp) :
    ∃ ms : List ℤ, ms.Pairwise (· < ·) ∧ (∀ x ∈ ms, 1 ≤ x ∧ x ≤ 12) ∧
      resp.labels = ms.map monthAbbrZ ∧ ∀ lab ∈ resp.labels, lab ∈ monthAbbrTable.tail := by
  obtain ⟨plan, hplan, hrows, ls, vs, hagg, hresp⟩ := processData_ok_elim h
  rw [hm] at hagg
  obtain ⟨hls, hvs⟩ := bucketAgg_some hagg
  have hshape : ∀ k ∈ groupKeys
      (keyedPairs (modeKeyFn TimeMode.month (normalizeMapping m0))
        (derivedRows t (normalizeMapping m0) plan)),
      k.1 = 0 ∧ 1 ≤ k.2 ∧ k.2 ≤ 12 := by
    intro k hk
    obtain ⟨r, _, hkf⟩ := keyedPairs_fst_mem (groupKeys_mem hk)
    exact monthBucket_shape (by simpa [modeKeyFn, monthKeyFn] using hkf)
  have hlabels : resp.labels
      = ((groupKeys
          (keyedPairs (modeKeyFn TimeMode.month (normalizeMapping m0))
            (derivedRows t (normalizeMapping m0) plan))).map Prod.snd).map monthAbbrZ := by
    rw [hresp]
    dsimp only
    rw [hls]
    simp [groupSum, List.map_map, Function.comp_def, modeLabel]
  refine ⟨_, ?_, ?_, hlabels, ?_⟩
  · rw [List.pairwise_map]
    refine pairwise_imp_mem ?_
      (pairwise_and_of (groupKeys_sorted _) (groupKeys_nodup _))
    rintro a ha b hb ⟨hle, hne⟩
    have hsa := hshape a ha
    have hsb := hshape b hb
    have h2 : a.2 ≤ b.2 := by
      rcases hle with hlt | ⟨_, hle2⟩
      · omega
      · exact hle2
    refine lt_of_le_of_ne h2 (fun hEq => hne ?_)
    exact Prod.ext (by omega) hEq
  · intro x hx
    rw [List.mem_map] at hx
    obtain ⟨k, hk, rfl⟩ := hx
    exact ⟨(hshape k hk).2.1, (hshape k hk).2.2⟩
  · intro lab hlab
    rw [hlabels, List.mem_map] at hlab
    obtain ⟨x, hx, rfl⟩ := hlab
    rw [List.mem_map] at hx
    obtain ⟨k, hk, rfl⟩ := hx
    exact monthAbbrZ_mem (hshape k hk).2.1 (hshape k hk).2.2

/-- Table used to witness C7: months appear out of calendar order and with
repeats. -/
def tblMW : Table :=
  { columns := ["product", "total", "month"]
    rows :=
      [[("product", Cell.str "A"), ("total", Cell.num 1), ("month", Cell.str "Dec")],
       [("product", Cell.str "A"), ("total", Cell.num 2), ("month", Cell.str "Feb")],
       [("product", Cell.str "A"), ("total", Cell.num 3), ("month", Cell.str "Dec")]] }

/-- Mapping for the C7 witness table. -/
def mapMW : Mapping :=
  { product_col := "product", total_col := "total", quantity_col := "", price_col := ""
    date_col := "", year_col := "", month_col := "month" }

/-- The response of the C7 witness run. -/
def respMW : Resp :=
  { revenue := 6, product := Cell.str "A", labels := ["Feb", "Dec"]
    values := [2, 4], used_basis := TimeMode.month }

/-- C7 witness: the theorem applied to a concrete run whose months arrive as
[Dec, Feb, Dec]; the label list it produces is [Feb, Dec]. -/
theorem month_labels_calendar_order_witness :
    ∃ ms : List ℤ, ms.Pairwise (· < ·) ∧ (∀ x ∈ ms, 1 ≤ x ∧ x ≤ 12) ∧
      respMW.labels = ms.map monthAbbrZ ∧
      ∀ lab ∈ respMW.labels, lab ∈ monthAbbrTable.tail :=
  month_labels_calendar_order tblMW mapMW "month" respMW (by decide) (by decide)

/-! ## Claim C1 -/

/-- Table whose second column header is a single space, which normalizes to
the empty string; its cells are numeric. -/
def tblBlank : Table :=
  { columns := ["product", " ", "month"]
    rows := [[("product", Cell.str "A"), (" ", Cell.num 5), ("month", Cell.str "Jan")]] }

/-- Mapping with the quantity and price roles (and total) left blank. -/
def mapBlank : Mapping :=
  { product_col := "product", total_col := "", quantity_col := "", price_col := ""
    date_col := "", year_col := "", month_col := "month" }

/-- C1 counterexample: with quantity and price roles blank and a
whitespace-only-named column present, the claim demands
MissingRevenueColumns; instead the run succeeds and total is computed from
the blank-named column as 5 x 5 = 25. -/
theorem blank_role_cex :
    processData tblBlank mapBlank "month" ≠ .error Err.MissingRevenueColumns ∧
    processData tblBlank mapBlank "month" =
      .ok { revenue := 25, product := Cell.str "A", labels := ["Jan"],
            values := [25], used_basis := TimeMode.month } := by
  constructor
  · decide
  · decide

/-- C1 (amended): a blank product role and a blank total role are treated as
unset — the product check fails on a blank product role even when a
blank-named column exists, and the total branch is never chosen on a blank
total role — but the quantity and price roles have no such guard: when both
are blank and a column whose normalized name is the empty string is present
(and the total branch does not fire), the revenue check passes via the
quantity/price branch, so total is computed from the blank-named column
rather than failing with MissingRevenueColumns. -/
theorem blank_role_amended :
    (∀ (t : Table) (m0 : Mapping) (s : String), normName m0.product_col = "" →
      processData t m0 s = .error Err.MissingProductColumn) ∧
    (∀ (m : Mapping) (cols : List String), m.total_col = "" →
      revenuePlan m cols ≠ some RevPlan.useTotal) ∧
    (∀ (m : Mapping) (cols : List String), m.quantity_col = "" → m.price_col = "" →
      "" ∈ cols → ¬(m.total_col ≠ "" ∧ m.total_col ∈ cols) →
      revenuePlan m cols = some RevPlan.useQtyPrice) := by
  refine ⟨fun t m0 s hp => ?_, fun m cols h0 hEq => ?_, fun m cols hq hp hmem htot => ?_⟩
  · have hp' : (normalizeMapping m0).product_col = "" := hp
    simp only [processData]
    rw [if_pos (Or.inl hp')]
  · unfold revenuePlan at hEq
    rw [if_neg (fun hc => hc.1 h0)] at hEq
    split at hEq
    · exact absurd (Option.some.inj hEq) (by decide)
    · exact absurd hEq (by decide)
  · unfold revenuePlan
    rw [if_neg htot, if_pos ⟨hq ▸ hmem, hp ▸ hmem⟩]

/-- C1 witness: the amended statement's quantity/price conjunct applied to the
blank-column scenario: with blank quantity and price roles and the blank
normalized column name present, the revenue plan is the quantity-times-price
branch. -/
theorem blank_role_amended_witness :
    revenuePlan (normalizeMapping mapBlank) (normCols tblBlank) = some RevPlan.useQtyPrice :=
  blank_role_amended.2.2 (normalizeMapping mapBlank) (normCols tblBlank)
    (by decide) (by decide) (by decide) (by decide)

/-! ## Claim C2 -/

/-- Table on which derivation drops every row: the only total cell is not
numeric. -/
def tblNoRows : Table :=
  { columns := ["product", "total"]
    rows := [[("product", Cell.str "A"), ("total", Cell.str "abc")]] }

/-- Mapping for the all-rows-dropped table: no date column selected. -/
def mapNoRows : Mapping :=
  { product_col := "product", total_col := "total", quantity_col := "", price_col := ""
    date_col := "", year_col := "", month_col := "" }

/-- C2 counterexample: the mapping lacks the date column required by date
mode and derivation drops every row; the claim demands
MissingTimeColumns(date), but the code answers NoValidRows. -/
theorem validation_order_cex :
    processData tblNoRows mapNoRows "date" = .error Err.NoValidRows ∧
    processData tblNoRows mapNoRows "date"
      ≠ .error (Err.MissingTimeColumns TimeMode.date) := by
  constructor
  · decide
  · decide

/-- C2 (amended): the product and revenue checks run in that order before
derivation, but the time-basis check runs only after derivation and its
empty-frame check: a failing product check wins over everything, a missing
revenue mapping wins over everything later, an empty derived frame yields
NoValidRows even when time-basis columns are missing, and only a nonempty
derived frame lets a missing time basis surface as MissingTimeColumns. -/
theorem validation_order_amended :
    (∀ (t : Table) (m0 : Mapping) (s : String),
      ((normalizeMapping m0).product_col = "" ∨ (normalizeMapping m0).product_col ∉ normCols t) →
      processData t m0 s = .error Err.MissingProductColumn) ∧
    (∀ (t : Table) (m0 : Mapping) (s : String),
      ¬((normalizeMapping m0).product_col = "" ∨
          (normalizeMapping m0).product_col ∉ normCols t) →
      revenuePlan (normalizeMapping m0) (normCols t) = none →
      processData t m0 s = .error Err.MissingRevenueColumns) ∧
    (∀ (t : Table) (m0 : Mapping) (s : String) (plan : RevPlan),
      ¬((normalizeMapping m0).product_col = "" ∨
          (normalizeMapping m0).product_col ∉ normCols t) →
      revenuePlan (normalizeMapping m0) (normCols t) = some plan →
      derivedRows t (normalizeMapping m0) plan = [] →
      processData t m0 s = .error Err.NoValidRows) ∧
    (∀ (t : Table) (m0 : Mapping) (s : String) (plan : RevPlan),
      ¬((normalizeMapping m0).product_col = "" ∨
          (normalizeMapping m0).product_col ∉ normCols t) →
      revenuePlan (normalizeMapping m0) (normCols t) = some plan →
      derivedRows t (normalizeMapping m0) plan ≠ [] →
      missingTime (parseTimeMode s) (normalizeMapping m0) (normCols t) →
      processData t m0 s = .error (Err.MissingTimeColumns (parseTimeMode s))) := by
  refine ⟨fun t m0 s hp => ?_, fun t m0 s hp hplan => ?_,
    fun t m0 s plan hp hplan hemp => ?_, fun t m0 s plan hp hplan hne hmt => ?_⟩
  · simp only [processData]
    rw [if_pos hp]
  · simp only [processData]
    rw [if_neg hp, hplan]
  · simp only [processData]
    rw [if_neg hp, hplan]
    simp [hemp]
  · simp only [processData]
    rw [if_neg hp, hplan]
    dsimp only
    rw [if_neg (by simpa using hne), if_pos hmt]

/-- C2 witness: the amended statement's last conjunct applied to a one-valid-
row table in date mode with no date column: the outcome is
MissingTimeColumns(date). -/
theorem validation_order_amended_witness :
    processData tblNeg mapNoRows "date" = .error (Err.MissingTimeColumns TimeMode.date) :=
  validation_order_amended.2.2.2 tblNeg mapNoRows "date" RevPlan.useTotal
    (by decide) (by decide) (by decide) (by decide)

/-! ## Claim C5 -/

/-- Setting one column leaves lookups of a differently-named column
unchanged. -/
theorem row_get_set_ne (r : Row) (c c' : String) (v : Cell) (h : c' ≠ c) :
    (Row.set r c v).get c' = r.get c' := by
  have hcc : (c == c') = false := by simpa using (Ne.symm h)
  induction r with
  | nil => simp [Row.set, Row.get, List.find?, hcc]
  | cons p rest ih =>
    by_cases hp : (p.1 == c) = true
    · have hpe : p.1 = c := by simpa using hp
      have hp' : (p.1 == c') = false := by
        rw [hpe]
        exact hcc
      simp [Row.set, Row.get, List.find?, hp, hcc, hp']
    · have hpf : (p.1 == c) = false := by simpa using hp
      cases hpc : (p.1 == c')
      · simpa [Row.set, Row.get, List.find?, hpf, hpc] using ih
      · simp [Row.set, Row.get, List.find?, hpf, hpc]

/-- Table with a raw CSV column literally named `quantity` that the user does
not select for any role. -/
def tblRawQty : Table :=
  { columns := ["product", "total", "quantity", "month"]
    rows :=
      [[("product", Cell.str "A"), ("total", Cell.num 10), ("quantity", Cell.num 1),
        ("month", Cell.str "Jan")],
       [("product", Cell.str "B"), ("total", Cell.num 5), ("quantity", Cell.num 7),
        ("month", Cell.str "Jan")]] }

/-- Mapping leaving the quantity role blank. -/
def mapRawQty : Mapping :=
  { product_col := "product", total_col := "total", quantity_col := "", price_col := ""
    date_col := "", year_col := "", month_col := "month" }

/-- C5 counterexample: the quantity role is unset, yet the raw CSV column
named `quantity` drives the leaderboard: product B wins with quantity 7
although grouping on total would make A win with 10 over 5; the claim says
the quantity path is never taken from an unselected raw column. -/
theorem leaderboard_raw_quantity_cex :
    (normalizeMapping mapRawQty).quantity_col ∉ normCols tblRawQty ∧
    quantitySignal (dfColumns (normalizeMapping mapRawQty) (normCols tblRawQty))
      (validRows tblRawQty (normalizeMapping mapRawQty)) = true ∧
    processData tblRawQty mapRawQty "month" =
      .ok { revenue := 15, product := Cell.str "B", labels := ["Jan"],
            values := [15], used_basis := TimeMode.month } := by
  refine ⟨by decide, by decide, by decide⟩

/-- C5 (amended): the leaderboard branch keys on the presence of a column
literally named `quantity` in the derived frame with some non-missing value
among the surviving rows; when the quantity role names an existing column the
derived `quantity` is its numeric cast, but when it does not, derivation
leaves any raw CSV column named `quantity` untouched — and its presence alone
(it is among the derived frame's columns) can send the leaderboard down the
quantity path, so the quantity path CAN be taken from a raw CSV column the
user never selected. -/
theorem leaderboard_branch_amended :
    (∀ (cols : List String) (rows : List Row),
      quantitySignal cols rows = true ↔
        ("quantity" ∈ cols ∧ ∃ r ∈ rows, r.get "quantity" ≠ Cell.missing)) ∧
    (∀ (m : Mapping) (plan : RevPlan) (r : Row),
      (deriveRow m plan false r).get "quantity" = r.get "quantity") ∧
    (∀ (m : Mapping) (cols : List String), "quantity" ∈ cols →
      "quantity" ∈ dfColumns m cols) := by
  refine ⟨fun cols rows => ?_, fun m plan r => ?_, fun m cols hmem => ?_⟩
  · simp [quantitySignal, List.any_eq_true]
  · simp only [deriveRow, if_false, Bool.false_eq_true]
    rw [row_get_set_ne _ _ _ _ (by decide), row_get_set_ne _ _ _ _ (by decide)]
  · have haddCol : ∀ (l : List String) (c x : String), x ∈ l → x ∈ addCol l c := by
      intro l c x hx
      unfold addCol
      split
      · exact hx
      · exact List.mem_append_left _ hx
    unfold dfColumns
    split
    · exact haddCol _ _ _ (haddCol _ _ _ (haddCol _ _ _ hmem))
    · exact haddCol _ _ _ (haddCol _ _ _ hmem)

/-- C5 witness: the amended statement applied to the raw-quantity scenario:
derivation with the quantity role unset leaves the first row's raw quantity
cell (1) readable, and the raw `quantity` column is among the derived frame's
columns. -/
theorem leaderboard_branch_amended_witness :
    (deriveRow (normalizeMapping mapRawQty) RevPlan.useTotal false
        [("product", Cell.str "A"), ("total", Cell.num 10), ("quantity", Cell.num 1),
         ("month", Cell.str "Jan")]).get "quantity" = Cell.num 1 ∧
    "quantity" ∈ dfColumns (normalizeMapping mapRawQty) (normCols tblRawQty) := by
  constructor
  · rw [leaderboard_branch_amended.2.1 (normalizeMapping mapRawQty) RevPlan.useTotal _]
    decide
  · exact leaderboard_branch_amended.2.2 (normalizeMapping mapRawQty) (normCols tblRawQty)
      (by decide)

/-! ## Claim C6 -/

/-- C6 counterexample: a storage-path change on which both directory creations
fail still replaces the in-memory upload and output folders (the claim says
the previous configuration stays fully in effect); only the persisted JSON
survives. -/
theorem settings_partial_apply_cex :
    settingsPost
        { upload := "/base/uploads", output := "/base/output"
          config := ("/base/uploads", "/base/output") }
        "/u" "/o" (fun _ => false) true
      = ({ upload := "/u", output := "/o"
           config := ("/base/uploads", "/base/output") }, false) ∧
    ("/u" : String) ≠ "/base/uploads" := by
  refine ⟨by decide, by decide⟩

/-- C6 (amended): when applying the new storage paths fails, the persisted
JSON configuration is unchanged and the request reports failure, but the
in-memory upload and output folder settings have already been replaced by the
new normalized paths — the apply is partial, not atomic. -/
theorem settings_failure_amended (s : StorageState) (ui oi : String)
    (mk : String → Bool) (sv : Bool)
    (hfail : (mk (normalizeStoragePath ui "uploads")
        && mk (normalizeStoragePath oi "output")) = false) :
    (settingsPost s ui oi mk sv).1.config = s.config ∧
    (settingsPost s ui oi mk sv).1.upload = normalizeStoragePath ui "uploads" ∧
    (settingsPost s ui oi mk sv).1.output = normalizeStoragePath oi "output" ∧
    (settingsPost s ui oi mk sv).2 = false := by
  simp only [settingsPost, applyStoragePaths, hfail]
  simp

/-- C6 witness: the amended statement applied to a concrete state and a
mkdir that always fails. -/
theorem settings_failure_amended_witness :
    (settingsPost
        { upload := "a", output := "b", config := ("a", "b") }
        "/u" "/o" (fun _ => false) true).1.config = ("a", "b") ∧
    (settingsPost
        { upload := "a", output := "b", config := ("a", "b") }
        "/u" "/o" (fun _ => false) true).2 = false := by
  have h := settings_failure_amended
    { upload := "a", output := "b", config := ("a", "b") }
    "/u" "/o" (fun _ => false) true (by decide)
  exact ⟨h.1, h.2.2.2⟩
